import Mathlib

/-!
Shallow embedding of the reminder bot in src/bot.py.

Text processing is modelled on lists of characters.  Python's regular
expressions are translated into explicit scanners that reproduce the
leftmost-scan, ordered-alternation and greedy-with-backtracking semantics
of the concrete patterns used by the source (analysed pattern by pattern).
Word characters are modelled as ASCII alphanumerics, the underscore and
the Spanish accented letters used by the bot's vocabulary; whitespace and
lowercasing are modelled likewise.  Instants are integers (minutes on a
UTC timeline); local calendar datetimes are a record of numeric fields.
The external date parser (the dateparser library) and the timezone
conversion are external collaborators and appear as function parameters.
-/

namespace Bot

/-! ## Character and string utilities -/

/-- Python str.lower restricted to the alphabet the bot manipulates:
ASCII letters plus the Spanish accented letters. -/
def pyLowerChar (c : Char) : Char :=
  if 'A' ≤ c ∧ c ≤ 'Z' then Char.ofNat (c.toNat + 32)
  else if c = 'Á' then 'á'
  else if c = 'É' then 'é'
  else if c = 'Í' then 'í'
  else if c = 'Ó' then 'ó'
  else if c = 'Ú' then 'ú'
  else if c = 'Ü' then 'ü'
  else if c = 'Ñ' then 'ñ'
  else c

def pyLower (cs : List Char) : List Char := cs.map pyLowerChar

/-- Python regex escape-s whitespace class (ASCII part). -/
def isSpacePy (c : Char) : Bool :=
  c = ' ' || c = '\t' || c = '\n' || c = '\r' || c = Char.ofNat 11 || c = Char.ofNat 12

def isDigitC (c : Char) : Bool := '0' ≤ c && c ≤ '9'

def digitVal (c : Char) : Nat := c.toNat - ('0').toNat

/-- Python regex word character, over the modelled alphabet. -/
def isWordC (c : Char) : Bool :=
  c.isAlpha || isDigitC c || c = '_' ||
  (['á', 'é', 'í', 'ó', 'ú', 'ü', 'ñ', 'Á', 'É', 'Í', 'Ó', 'Ú', 'Ü', 'Ñ'] : List Char).contains c

def isPrefixL : List Char → List Char → Bool
  | [], _ => true
  | _ :: _, [] => false
  | a :: as, b :: bs => a = b && isPrefixL as bs

/-- Python substring containment (the in operator on str). -/
def containsSub (needle : List Char) : List Char → Bool
  | [] => needle.isEmpty
  | c :: t => isPrefixL needle (c :: t) || containsSub needle t

def spanLen (p : Char → Bool) (cs : List Char) : Nat := (cs.takeWhile p).length

/-- Python str.strip(). -/
def pyStrip (cs : List Char) : List Char :=
  ((cs.dropWhile isSpacePy).reverse.dropWhile isSpacePy).reverse

/-- Python str.strip(chars). -/
def pyStripChars (chars : List Char) (cs : List Char) : List Char :=
  ((cs.dropWhile chars.contains).reverse.dropWhile chars.contains).reverse

def digitsToNat (ds : List Char) : Nat := ds.foldl (fun a c => 10 * a + digitVal c) 0

/-- Word boundary on the left of the current scan position: true at the
start of the string or after a non-word character. -/
def boundaryOkL (prev : Option Char) : Bool :=
  match prev with
  | none => true
  | some c => !isWordC c

/-- Word boundary between a previous character of the given word-ness and
the head of the remaining text (true at end of string when the previous
character is a word character). -/
def bTrail (prevIsWord : Bool) (cs : List Char) : Bool :=
  match cs with
  | [] => prevIsWord
  | c :: _ => prevIsWord != isWordC c

/-- Word boundary after a word character (next is non-word or end). -/
def headBoundary : List Char → Bool
  | [] => true
  | c :: _ => !isWordC c

/-! ## Generic regex-style scanners

scanFind returns the result of the leftmost successful match attempt of a
matcher; scanSub replaces every non-overlapping leftmost match with a
replacement, continuing after the matched region, as Python re.sub does.
Matchers receive the previous original character (for word boundaries)
and the remaining original text, and report the matched length. -/

def scanFind (m : Option Char → List Char → Option α) : Option Char → List Char → Option α
  | _, [] => none
  | prev, c :: t =>
    match m prev (c :: t) with
    | some r => some r
    | none => scanFind m (some c) t

/-- Fuel-driven substitution scanner; every matcher used consumes at least
one character, so fuel equal to the text length suffices. -/
def scanSub (m : Option Char → List Char → Option Nat) (repl : List Char) :
    Nat → Option Char → List Char → List Char
  | _, _, [] => []
  | 0, _, cs => cs
  | fuel + 1, prev, c :: t =>
    match m prev (c :: t) with
    | some n => repl ++ scanSub m repl fuel (((c :: t).take n).getLast?) ((c :: t).drop n)
    | none => c :: scanSub m repl fuel (some c) t

/-! ## Money-number scanner

Pattern from src/bot.py: a branch for grouped thousands with an optional
dollar sign and leading whitespace, and a branch for a bare digit run,
tried in this order at every position:
  dollar? spaces digits-1-to-3 (sep digits-3)+  |  dollar? spaces digits.
In strip_money_candidates the second branch requires at least four
digits; in the findall used by parse_amount_cop_strict it requires at
least one.  A detailed analysis of the backtracking shows the match at a
given position is deterministic; groupsLen counts the greedy thousands
groups. -/

def groupsLen : List Char → Nat
  | s :: d1 :: d2 :: d3 :: rest =>
    if (s = '.' ∨ s = ',') ∧ isDigitC d1 ∧ isDigitC d2 ∧ isDigitC d3 then groupsLen rest + 1
    else 0
  | _ => 0

/-- Length of the money-number match at the head of the text, if any;
minB2 is the minimum digit count of the bare-digits branch. -/
def matchMoneyAt (minB2 : Nat) (cs : List Char) : Option Nat :=
  let (pre, cs1) : Nat × List Char :=
    match cs with
    | '$' :: t => (1, t)
    | _ => (0, cs)
  let w := spanLen isSpacePy cs1
  let cs2 := cs1.drop w
  let d := spanLen isDigitC cs2
  let cs3 := cs2.drop d
  if 1 ≤ d ∧ d ≤ 3 then
    let g := groupsLen cs3
    if 1 ≤ g then some (pre + w + d + 4 * g)
    else if minB2 ≤ d then some (pre + w + d) else none
  else if minB2 ≤ d ∧ 1 ≤ d then some (pre + w + d)
  else none

/-- The re.sub of strip_money_candidates: every match of the money pattern
(with the bare branch requiring four digits) has at least four digits and
never a colon, so the replacement function always yields a space. -/
def subMoneyAux : Nat → List Char → List Char
  | _, [] => []
  | 0, cs => cs
  | fuel + 1, c :: t =>
    match matchMoneyAt 4 (c :: t) with
    | some n => ' ' :: subMoneyAux fuel ((c :: t).drop n)
    | none => c :: subMoneyAux fuel t

/-- strip_money_candidates from src/bot.py. -/
def strip_money_candidates (s : String) : String :=
  ⟨subMoneyAux s.toList.length s.toList⟩

/-- The re.findall of parse_amount_cop_strict (bare branch of one digit or
more), returning the matched tokens left to right. -/
def findallMoneyAux : Nat → List Char → List (List Char)
  | _, [] => []
  | 0, _ => []
  | fuel + 1, c :: t =>
    match matchMoneyAt 1 (c :: t) with
    | some n => (c :: t).take n :: findallMoneyAux fuel ((c :: t).drop n)
    | none => findallMoneyAux fuel t

def findallMoney (s : String) : List (List Char) :=
  findallMoneyAux s.toList.length s.toList

/-! ## Amount extraction (parse_amount_cop_strict) -/

def MONEY_WORDS : List String := ["pagar", "pago", "pesos", "cop", "$", "debo"]

def money_context (tl : List Char) : Bool :=
  MONEY_WORDS.any (fun w => containsSub w.toList tl)

/-- One step of the best-candidate loop of parse_amount_cop_strict. -/
def amountStep (best : Option Nat) (c : List Char) : Option Nat :=
  if c.contains ':' then best
  else
    let ds := c.filter isDigitC
    if ds.length < 4 then best
    else
      let v := digitsToNat ds
      if v ≤ 0 then best
      else
        match best with
        | none => some v
        | some b => if v > b then some v else some b

/-- parse_amount_cop_strict from src/bot.py. -/
def parse_amount_cop_strict (s : String) : Option Nat :=
  if money_context (pyLower s.toList) then
    (findallMoney s).foldl amountStep none
  else none

/-- Maximum of a list of naturals, none when empty (used to state the
specification side of the amount claim: the largest value is returned). -/
def listMax : List Nat → Option Nat
  | [] => none
  | a :: t =>
    some (match listMax t with
          | none => a
          | some m => max a m)

/-- Eligibility of a numeric candidate exactly as the claim words it: no
colon and at least four digits ignoring separators. -/
def amount_claim_eligible (c : List Char) : Bool :=
  !c.contains ':' && decide (4 ≤ (c.filter isDigitC).length)

/-- The amount extractor as the claim describes it: under money context,
the largest eligible candidate value. -/
def amount_claim_spec (s : String) : Option Nat :=
  if money_context (pyLower s.toList) then
    listMax (((findallMoney s).filter amount_claim_eligible).map
      (fun c => digitsToNat (c.filter isDigitC)))
  else none

/-- Eligibility as the code enforces it: the claim's conditions plus a
strictly positive value (all-zero digit strings are discarded). -/
def amount_eligible (c : List Char) : Bool :=
  amount_claim_eligible c && decide (0 < digitsToNat (c.filter isDigitC))

/-- The amended amount specification: largest positive eligible value. -/
def amount_amended_spec (s : String) : Option Nat :=
  if money_context (pyLower s.toList) then
    listMax (((findallMoney s).filter amount_eligible).map
      (fun c => digitsToNat (c.filter isDigitC)))
  else none

/-! ## Time-hint scanners (text_has_time_hints and the bare-number check)

The am-pm pattern is boundary, one or two digits, optional spaces, the
letters am or pm, boundary.  The bare-number pattern is boundary, one or
two digits, an optional colon-and-two-digits group, boundary; analysis of
the backtracking shows the optional group never changes whether a match
exists, but it is kept for fidelity. -/

/-- Tail of the am-pm pattern after the digits: spaces then am or pm then
a trailing word boundary. -/
def ampmMandTail (cs : List Char) : Bool :=
  let cs2 := cs.drop (spanLen isSpacePy cs)
  (isPrefixL ("am").toList cs2 || isPrefixL ("pm").toList cs2) && bTrail true (cs2.drop 2)

def ampmHintMatcher (prev : Option Char) (cs : List Char) : Option Unit :=
  if boundaryOkL prev then
    match cs with
    | d1 :: rest =>
      if isDigitC d1 then
        let two :=
          match rest with
          | d2 :: rest2 => isDigitC d2 && ampmMandTail rest2
          | [] => false
        if two || ampmMandTail rest then some () else none
      else none
    | [] => none
  else none

def ampmSearch (tl : List Char) : Bool := (scanFind ampmHintMatcher none tl).isSome

/-- text_has_time_hints from src/bot.py (applied to the lowercased text). -/
def text_has_time_hints (cs : List Char) : Bool :=
  let tl := pyLower cs
  tl.contains ':' || ampmSearch tl || containsSub ("a las").toList tl

/-- Tail of the bare-number pattern: optional colon group, then boundary. -/
def bareNumTail (cs : List Char) : Bool :=
  (match cs with
   | ':' :: a :: b :: rest => isDigitC a && isDigitC b && bTrail true rest
   | _ => false)
  || bTrail true cs

def bareNumMatcher (prev : Option Char) (cs : List Char) : Option Unit :=
  if boundaryOkL prev then
    match cs with
    | d1 :: rest =>
      if isDigitC d1 then
        let two :=
          match rest with
          | d2 :: rest2 => isDigitC d2 && bareNumTail rest2
          | [] => false
        if two || bareNumTail rest then some () else none
      else none
    | [] => none
  else none

/-- The re.search for a standalone one-or-two digit number (with optional
colon minutes) in parse_date_time_from_text. -/
def bareNumSearch (tl : List Char) : Bool := (scanFind bareNumMatcher none tl).isSome

/-! ## Day-mention detection and default-hour augmentation -/

def DAY_WORDS : List String :=
  ["hoy", "mañana", "manana",
   "lunes", "martes", "miércoles", "miercoles", "jueves", "viernes", "sábado", "sabado", "domingo",
   "próximo", "proximo",
   "enero", "febrero", "marzo", "abril", "mayo", "junio", "julio", "agosto", "septiembre", "setiembre",
   "octubre", "noviembre", "diciembre",
   "en ", "dentro", "esta tarde", "esta noche"]

def mentions_day (tl : List Char) : Bool :=
  DAY_WORDS.any (fun w => containsSub w.toList tl)

/-- The text actually handed to the external date parser by
parse_date_time_from_text: money candidates stripped, and the configured
default hour appended when a day word is mentioned and no time hint
(colon, am-pm, a-las, or standalone one-or-two digit number) is present. -/
def augmentText (dh : String) (s : String) : String :=
  let cleaned := strip_money_candidates s
  let tl := pyLower cleaned.toList
  let has_time := text_has_time_hints cleaned.toList || bareNumSearch tl
  if mentions_day tl && !has_time then cleaned ++ " " ++ dh else cleaned

/-- parse_date_time_from_text from src/bot.py; the external Spanish date
parser (dateparser, configured for the local timezone, future bias and a
relative base of now) is the parameter dp. -/
def parse_date_time_from_text (dp : String → Option Int) (dh : String) (s : String) : Option Int :=
  dp (augmentText dh s)

/-! ## Data model and reminder store

The reminders table of src/bot.py.  Instants (the ISO strings of the
database, whose lexical order is chronological order) are modelled as
integers on a single UTC timeline, in minutes.  The store is the list of
rows; the id column is the table's primary key. -/

inductive Status where
  | pending
  | done
  | deleted
deriving DecidableEq, Repr

structure Reminder where
  id : Nat
  chat_id : Int
  task : String
  due_utc : Int
  status : Status
  amount_cop : Option Nat
  category : String
  created_utc : Option Int
  completed_utc : Option Int
  retry_count : Nat
  last_sent_utc : Option Int
deriving DecidableEq, Repr

/-- insert_reminder from src/bot.py; the store assigns the next id. -/
def insert_reminder (store : List Reminder) (nid : Nat) (chat : Int) (task : String)
    (due : Int) (amount : Option Nat) (category : String) (now : Int) :
    Nat × List Reminder :=
  (nid, store ++ [{ id := nid, chat_id := chat, task := task, due_utc := due,
                    status := .pending, amount_cop := amount, category := category,
                    created_utc := some now, completed_utc := none,
                    retry_count := 0, last_sent_utc := none }])

/-- update_reminder_time from src/bot.py: if a non-deleted row with this
chat and id exists, set its due instant, force status pending, reset the
retry count and clear the last-sent stamp; otherwise report not-found and
leave the store unchanged. -/
def update_reminder_time (store : List Reminder) (chat : Int) (rid : Nat) (newDue : Int) :
    Option Int × List Reminder :=
  match store.find? (fun r => decide (r.chat_id = chat ∧ r.id = rid ∧ r.status ≠ .deleted)) with
  | none => (none, store)
  | some _ =>
    (some newDue,
     store.map (fun r =>
       if r.chat_id = chat ∧ r.id = rid then
         { r with due_utc := newDue, status := .pending, retry_count := 0, last_sent_utc := none }
       else r))

/-- Insertion sort by due instant, modelling the ORDER BY due ASC of the
fetch queries. -/
def insertByDue (x : Reminder) : List Reminder → List Reminder
  | [] => [x]
  | y :: t => if x.due_utc ≤ y.due_utc then x :: y :: t else y :: insertByDue x t

def sortByDue : List Reminder → List Reminder
  | [] => []
  | x :: t => insertByDue x (sortByDue t)

/-- fetch_reminders from src/bot.py: with an explicit status argument the
rows of that status, otherwise all non-deleted rows; ordered by due
instant, limited. -/
def fetch_reminders (store : List Reminder) (chat : Int) (status : Option Status)
    (limit : Nat) : List Reminder :=
  match status with
  | some st =>
    (sortByDue (store.filter (fun r => decide (r.chat_id = chat ∧ r.status = st)))).take limit
  | none =>
    (sortByDue (store.filter (fun r => decide (r.chat_id = chat ∧ r.status ≠ .deleted)))).take limit

/-- fetch_range from src/bot.py: non-deleted rows of the chat whose due
instant lies in the closed range, optionally restricted to a category. -/
def fetch_range (store : List Reminder) (chat : Int) (startI endI : Int)
    (category : Option String) : List Reminder :=
  sortByDue (store.filter (fun r =>
    decide (r.chat_id = chat ∧ r.status ≠ .deleted ∧
            (∀ c, category = some c → r.category = c) ∧
            startI ≤ r.due_utc ∧ r.due_utc ≤ endI)))

/-- mark_done from src/bot.py: with an id, that pending row; without, the
earliest-due pending row; sets status done and stamps the completion
instant. -/
def mark_done (store : List Reminder) (chat : Int) (rid? : Option Nat) (now : Int) :
    Option (Nat × String) × List Reminder :=
  let found : Option Reminder :=
    match rid? with
    | none =>
      (sortByDue (store.filter (fun r => decide (r.chat_id = chat ∧ r.status = .pending)))).head?
    | some rid =>
      store.find? (fun r => decide (r.chat_id = chat ∧ r.id = rid ∧ r.status = .pending))
  match found with
  | none => (none, store)
  | some r =>
    (some (r.id, r.task),
     store.map (fun x =>
       if x.chat_id = chat ∧ x.id = r.id then
         { x with status := .done, completed_utc := some now }
       else x))

/-- delete_reminder from src/bot.py: soft delete of a non-deleted row. -/
def delete_reminder (store : List Reminder) (chat : Int) (rid : Nat) :
    Option (Nat × String) × List Reminder :=
  match store.find? (fun r => decide (r.chat_id = chat ∧ r.id = rid ∧ r.status ≠ .deleted)) with
  | none => (none, store)
  | some r =>
    (some (r.id, r.task),
     store.map (fun x =>
       if x.chat_id = chat ∧ x.id = rid then { x with status := .deleted } else x))

/-- The payment rows of format_pay_sum: an amount present or category
pago. -/
def payRows (rows : List Reminder) : List Reminder :=
  rows.filter (fun r => decide (r.amount_cop ≠ none ∨ r.category = "pago"))

/-- The total computed by format_pay_sum (missing amounts count as 0). -/
def pay_sum_total (rows : List Reminder) : Nat :=
  (payRows rows).foldl (fun acc r => acc + r.amount_cop.getD 0) 0

/-! ## Scheduler (tick_job)

The transport send is a parameter returning success or failure; a failure
models a transport exception, which the source catches per reminder. -/

/-- Rate-limit check: proceed when there is no previous send or the
cooldown has elapsed since it. -/
def cooldown_ok (cool now : Int) (ls : Option Int) : Bool :=
  match ls with
  | none => true
  | some l => decide (cool ≤ now - l)

/-- Processing of one pending row inside tick_job; the boolean reports
whether a delivery attempt was made for this row. -/
def tickOne (maxR : Nat) (cool now : Int) (send : Reminder → Bool) (r : Reminder) :
    Reminder × Bool :=
  if now < r.due_utc then (r, false)
  else if maxR ≤ r.retry_count then
    ({ r with status := .done, completed_utc := some now }, false)
  else if !cooldown_ok cool now r.last_sent_utc then (r, false)
  else if send r then
    ({ r with retry_count := r.retry_count + 1, last_sent_utc := some now }, true)
  else (r, true)

/-- What one scheduler tick does to a single row (the tick only fetches
pending rows, so others are untouched and never attempted). -/
def tickStep (maxR : Nat) (cool now : Int) (send : Reminder → Bool) (r : Reminder) :
    Reminder × Bool :=
  if r.status = .pending then tickOne maxR cool now send r else (r, false)

/-- tick_job from src/bot.py over the whole store. -/
def tick_job (maxR : Nat) (cool now : Int) (send : Reminder → Bool)
    (store : List Reminder) : List Reminder :=
  store.map (fun r => (tickStep maxR cool now send r).1)

/-! ## Quincena (half-month period) resolution -/

/-- Local calendar datetime, in the single configured timezone. -/
structure LocalDT where
  year : Nat
  month : Nat
  day : Nat
  hour : Nat
  minute : Nat
deriving DecidableEq, Repr

def isLeapYear (y : Nat) : Bool :=
  decide (y % 4 = 0 ∧ (y % 100 ≠ 0 ∨ y % 400 = 0))

/-- calendar.monthrange's day count. -/
def daysInMonth (y m : Nat) : Nat :=
  if m = 2 then (if isLeapYear y then 29 else 28)
  else if m = 4 ∨ m = 6 ∨ m = 9 ∨ m = 11 then 30
  else 31

/-- quincena_range from src/bot.py. -/
def quincena_range (y m which : Nat) : LocalDT × LocalDT :=
  if which = 1 then (⟨y, m, 1, 0, 0⟩, ⟨y, m, 15, 23, 59⟩)
  else (⟨y, m, 16, 0, 0⟩, ⟨y, m, daysInMonth y m, 23, 59⟩)

/-- current_quincena_range from src/bot.py. -/
def current_quincena_range (today : LocalDT) : LocalDT × LocalDT × String :=
  let which := if today.day ≤ 15 then 1 else 2
  let se := quincena_range today.year today.month which
  (se.1, se.2,
   if which = 1 then ("esta primera quincena" : String) else ("esta segunda quincena" : String))

def MONTHS_ES : List (String × Nat) :=
  [("enero", 1), ("febrero", 2), ("marzo", 3), ("abril", 4), ("mayo", 5), ("junio", 6),
   ("julio", 7), ("agosto", 8), ("septiembre", 9), ("setiembre", 9),
   ("octubre", 10), ("noviembre", 11), ("diciembre", 12)]

/-- Matcher for a whole word from an ordered list of alternatives, with
case-insensitive comparison and word boundaries on both sides. -/
def altMatcher (alts : List (List Char)) (prev : Option Char) (cs : List Char) : Option Nat :=
  if boundaryOkL prev then
    match alts.find? (fun a =>
        isPrefixL a (pyLower cs) && headBoundary ((pyLower cs).drop a.length)) with
    | some a => some a.length
    | none => none
  else none

/-- Whole-word search (the re.search of a word between boundaries). -/
def word_in (w : List Char) (tl : List Char) : Bool :=
  (scanFind (altMatcher [w]) none tl).isSome

/-- Matcher for a four-digit year of the form 20xx between boundaries,
returning its value. -/
def yearMatcher (prev : Option Char) (cs : List Char) : Option Nat :=
  if boundaryOkL prev then
    match cs with
    | '2' :: '0' :: a :: b :: rest =>
      if isDigitC a && isDigitC b && bTrail true rest then
        some (2000 + 10 * digitVal a + digitVal b)
      else none
    | _ => none
  else none

/-- parse_quincena_query from src/bot.py. -/
def parse_quincena_query (today : LocalDT) (s : String) :
    Option (LocalDT × LocalDT × String) :=
  let tl := pyLower s.toList
  if containsSub ("esta quincena").toList tl then some (current_quincena_range today)
  else
    let which0 : Option Nat :=
      if containsSub ("primera quincena").toList tl then some 1
      else if containsSub ("segunda quincena").toList tl then some 2
      else none
    match MONTHS_ES.find? (fun p => word_in p.1.toList tl) with
    | none => none
    | some (mname, mnum) =>
      let y :=
        match scanFind yearMatcher none tl with
        | some yy => yy
        | none => today.year
      let which :=
        match which0 with
        | some w => w
        | none =>
          if mnum = today.month ∧ y = today.year then (if today.day ≤ 15 then 1 else 2)
          else 1
      let se := quincena_range y mnum which
      let label :=
        (if which = 1 then ("primera" : String) else ("segunda" : String)) ++
          " quincena de " ++ mname ++ " " ++ toString y
      some (se.1, se.2, label)

/-! ## Natural-language features and the create-intent parser -/

def CONFIRM_WORDS : List String :=
  ["ya", "listo", "hecho", "ok", "okey", "confirmo", "pagado",
   "realizado", "ya lo hice", "ya lo pagué", "ya lo pague"]

/-- looks_like_confirm from src/bot.py. -/
def looks_like_confirm (s : String) : Bool :=
  let t := pyLower (pyStrip s.toList)
  CONFIRM_WORDS.any (fun w => decide (t = w.toList) || containsSub w.toList t)

def DELETE_VERBS : List String := ["borrar", "borra", "eliminar", "elimina"]

/-- Maximal digit runs of the text (the re.findall of an optional hash
followed by digits extracts exactly these). -/
def digitRuns : Nat → List Char → List (List Char)
  | _, [] => []
  | 0, _ => []
  | fuel + 1, c :: t =>
    if isDigitC c then (c :: t.takeWhile isDigitC) :: digitRuns fuel (t.dropWhile isDigitC)
    else digitRuns fuel t

/-- First-seen-order deduplication. -/
def dedupFirst (seen : List Nat) : List Nat → List Nat
  | [] => []
  | x :: t => if x ∈ seen then dedupFirst seen t else x :: dedupFirst (x :: seen) t

/-- parse_delete_request from src/bot.py: a leading delete verb (whole
word), then all integer tokens, deduplicated preserving order. -/
def parse_delete_request (s : String) : Option (List Nat) :=
  let tl := pyLower (pyStrip s.toList)
  match DELETE_VERBS.find? (fun v =>
      isPrefixL v.toList tl && headBoundary (tl.drop v.toList.length)) with
  | none => none
  | some _ =>
    let nums := digitRuns tl.length tl
    if nums = [] then none
    else
      let out := dedupFirst [] (nums.map digitsToNat)
      if out = [] then none else some out

def phraseMatch (s : String) (phrases : List String) : Bool :=
  phrases.any (fun p => decide (pyLower (pyStrip s.toList) = p.toList))

def is_pending_list_request (s : String) : Bool :=
  phraseMatch s ["lista", "generar lista", "generar la lista", "genera lista", "genera la lista"]

def is_full_list_request (s : String) : Bool :=
  phraseMatch s ["genera toda la lista", "generar toda la lista", "toda la lista", "lista completa"]

def is_quincena_list_request (s : String) : Bool :=
  phraseMatch s ["genera toda la de la quincena", "generar toda la de la quincena",
                 "lista de la quincena", "toda la quincena"]

def is_commands_request (s : String) : Bool :=
  phraseMatch s ["generar lista de comandos", "genera comando", "comandos",
                 "comandos disponibles", "ayuda"]

/-! Relative-duration pattern: boundary, the word en, spaces, digits,
optional spaces, a unit from the ordered alternation, trailing boundary. -/

def REL_UNITS : List String := ["min", "minuto", "minutos", "m", "hora", "horas", "h"]

/-- Matcher for the relative-duration pattern on lowercased text,
returning the numeric value, the matched unit and the matched length. -/
def relMatcher (prev : Option Char) (cs0 : List Char) : Option (Nat × String × Nat) :=
  if boundaryOkL prev then
    match pyLower cs0 with
    | 'e' :: 'n' :: rest =>
      let w := spanLen isSpacePy rest
      if w = 0 then none
      else
        let cs2 := rest.drop w
        let d := spanLen isDigitC cs2
        if d = 0 then none
        else
          let n := digitsToNat (cs2.take d)
          let cs3 := cs2.drop (d + spanLen isSpacePy (cs2.drop d))
          let w2 := spanLen isSpacePy (cs2.drop d)
          match REL_UNITS.find? (fun u =>
              isPrefixL u.toList cs3 && headBoundary (cs3.drop u.toList.length)) with
          | some u => some (n, u, 2 + w + d + w2 + u.toList.length)
          | none => none
    | _ => none
  else none

/-- The re.search for the relative-duration pattern. -/
def relSearch (tl : List Char) : Option (Nat × String × Nat) :=
  scanFind relMatcher none tl

/-! Matchers for the task-derivation substitutions of
parse_create_intent, all case-insensitive. -/

/-- Tail after the mandatory colon-minutes of a clock time: spaces, an
optional am-pm, then a word boundary; greedy on the spaces, trying the
group before the empty alternative, as the regex engine does. -/
def ampmOptTry (cs : List Char) (k : Nat) : Option Nat :=
  let cs2 := cs.drop k
  if (isPrefixL ("am").toList cs2 || isPrefixL ("pm").toList cs2) && bTrail true (cs2.drop 2) then
    some (k + 2)
  else if bTrail (decide (k = 0)) cs2 then some k
  else none

def ampmOptGo (cs : List Char) : Nat → Option Nat
  | 0 => ampmOptTry cs 0
  | k + 1 =>
    match ampmOptTry cs (k + 1) with
    | some n => some n
    | none => ampmOptGo cs k

def ampmOptTail (cs : List Char) : Option Nat := ampmOptGo cs (spanLen isSpacePy cs)

/-- Matcher for a clock time: one or two digits, colon, two digits, then
optional spaces and am-pm, between word boundaries. -/
def timeColonMatcher (prev : Option Char) (cs0 : List Char) : Option Nat :=
  if boundaryOkL prev then
    let cs := pyLower cs0
    match
      (match cs with
       | d1 :: d2 :: ':' :: a :: b :: rest =>
         if isDigitC d1 && isDigitC d2 && isDigitC a && isDigitC b then
           (ampmOptTail rest).map (fun k => 5 + k)
         else none
       | _ => none) with
    | some n => some n
    | none =>
      match cs with
      | d1 :: ':' :: a :: b :: rest =>
        if isDigitC d1 && isDigitC a && isDigitC b then (ampmOptTail rest).map (fun k => 4 + k)
        else none
      | _ => none
  else none

/-- Matcher for one or two digits, spaces, a mandatory am-pm, between
word boundaries. -/
def ampmNumMatcher (prev : Option Char) (cs0 : List Char) : Option Nat :=
  if boundaryOkL prev then
    let cs := pyLower cs0
    match cs with
    | d1 :: rest =>
      if isDigitC d1 then
        let two : Option Nat :=
          match rest with
          | d2 :: rest2 =>
            if isDigitC d2 then
              let w := spanLen isSpacePy rest2
              if ampmMandTail rest2 then some (2 + w + 2) else none
            else none
          | [] => none
        match two with
        | some n => some n
        | none =>
          let w := spanLen isSpacePy rest
          if ampmMandTail rest then some (1 + w + 2) else none
      else none
    | [] => none
  else none

/-- Matcher for an ISO date: four digits, dash, two, dash, two, between
word boundaries. -/
def isoDateMatcher (prev : Option Char) (cs : List Char) : Option Nat :=
  if boundaryOkL prev then
    match cs with
    | a :: b :: c :: d :: '-' :: e :: f :: '-' :: g :: h :: rest =>
      if isDigitC a && isDigitC b && isDigitC c && isDigitC d &&
         isDigitC e && isDigitC f && isDigitC g && isDigitC h && bTrail true rest then
        some 10
      else none
    | _ => none
  else none

/-- Matcher for a standalone one-or-two digit number between word
boundaries. -/
def smallNumMatcher (prev : Option Char) (cs : List Char) : Option Nat :=
  if boundaryOkL prev then
    match cs with
    | d1 :: d2 :: rest =>
      if isDigitC d1 && isDigitC d2 && bTrail true rest then some 2
      else if isDigitC d1 && bTrail true (d2 :: rest) then some 1
      else none
    | [d1] => if isDigitC d1 && bTrail true [] then some 1 else none
    | [] => none
  else none

/-- Matcher form of the money-substitution pattern (position-independent
of the previous character). -/
def moneyMatcher (_ : Option Char) (cs : List Char) : Option Nat := matchMoneyAt 4 cs

/-- Matcher form of the relative-duration pattern, giving the length. -/
def relLenMatcher (prev : Option Char) (cs : List Char) : Option Nat :=
  (relMatcher prev cs).map (fun r => r.2.2)

/-- Whole-word substitution by a single space (case-insensitive). -/
def wordAltSub (alts : List String) (cs : List Char) : List Char :=
  scanSub (altMatcher (alts.map (fun a => a.toList))) [' '] cs.length none cs

def STRIP_WORDS1 : List String :=
  ["hoy", "mañana", "manana", "el", "este", "esta", "próximo", "proximo", "cada"]

def WEEKDAY_WORDS : List String :=
  ["lunes", "martes", "miércoles", "miercoles", "jueves", "viernes", "sábado", "sabado", "domingo"]

def MONTH_WORDS : List String :=
  ["enero", "febrero", "marzo", "abril", "mayo", "junio", "julio", "agosto", "septiembre",
   "setiembre", "octubre", "noviembre", "diciembre"]

/-- Whitespace-run collapsing (the substitution of runs of whitespace by
a single space). -/
def collapseWs : Nat → List Char → List Char
  | _, [] => []
  | 0, cs => cs
  | fuel + 1, c :: t =>
    if isSpacePy c then ' ' :: collapseWs fuel (t.dropWhile isSpacePy)
    else c :: collapseWs fuel t

def REMINDER_VERBS : List String := ["recuérdame", "recuerdame", "recordame"]

/-- The substitution removing a leading reminder verb and the following
whitespace (anchored, case-insensitive). -/
def stripReminderVerb (t : List Char) : List Char :=
  let tl := pyLower t
  match REMINDER_VERBS.find? (fun v =>
      isPrefixL v.toList tl && decide (1 ≤ spanLen isSpacePy (tl.drop v.toList.length))) with
  | some v =>
    let n := v.toList.length
    t.drop (n + spanLen isSpacePy (t.drop n))
  | none => t

/-- First double-quoted substring of the text, if any. -/
def firstQuoted : List Char → Option (List Char)
  | [] => none
  | c :: t =>
    if c = '"' then
      let seg := t.takeWhile (fun x => decide (x ≠ '"'))
      if 1 ≤ seg.length &&
         (match t.drop seg.length with
          | '"' :: _ => true
          | _ => false) then some seg
      else firstQuoted t
    else firstQuoted t

/-- The task-derivation cascade of parse_create_intent for the
non-relative branch: strip date words, weekday and month names, clock
times, ISO dates, small numbers and money candidates; collapse
whitespace; trim punctuation; restore a leading pagar for payments; fall
back to the uncleaned sentence when fewer than three characters remain. -/
def deriveTask (cleaned : List Char) (category : String) : List Char :=
  let tmp := wordAltSub STRIP_WORDS1 cleaned
  let tmp := wordAltSub WEEKDAY_WORDS tmp
  let tmp := wordAltSub MONTH_WORDS tmp
  let tmp := scanSub timeColonMatcher [' '] tmp.length none tmp
  let tmp := scanSub ampmNumMatcher [' '] tmp.length none tmp
  let tmp := scanSub isoDateMatcher [' '] tmp.length none tmp
  let tmp := scanSub smallNumMatcher [' '] tmp.length none tmp
  let tmp := scanSub moneyMatcher [' '] tmp.length none tmp
  let tmp := pyStripChars [' ', ',', '.', '-'] (collapseWs tmp.length tmp)
  let tmp :=
    if category = "pago" && !containsSub ("pagar").toList (pyLower tmp) then
      pyStrip (("pagar ").toList ++ tmp)
    else tmp
  if 3 ≤ tmp.length then tmp else cleaned

/-- The structured result of parse_create_intent. -/
structure ParsedCreate where
  task : String
  due_local : Option Int
  amount_cop : Option Nat
  category : String
deriving DecidableEq, Repr

def PAY_WORDS : List String := ["pagar", "pago", "debo pagar", "tengo que pagar", "debo"]

def MIN_UNITS : List String := ["min", "minuto", "minutos", "m"]

/-- parse_create_intent from src/bot.py; dp is the external date parser,
dh the configured default hour, now the current local instant. -/
def parse_create_intent (dp : String → Option Int) (dh : String) (now : Int)
    (s : String) : Option ParsedCreate :=
  let t := pyStrip s.toList
  let tl := pyLower t
  let is_reminder := REMINDER_VERBS.any (fun k => containsSub k.toList tl)
  let is_pay := PAY_WORDS.any (fun k => containsSub k.toList tl)
  if !(is_reminder || is_pay) then none
  else
    let task0 : List Char :=
      match firstQuoted t with
      | some q => pyStrip q
      | none => []
    let amount := parse_amount_cop_strict ⟨t⟩
    let category : String := if amount.isSome || is_pay then ("pago") else ("general")
    match relSearch tl with
    | some (n, unit, _) =>
      let mins : Int := if MIN_UNITS.any (fun u => decide (u = unit)) then (n : Int) else (n : Int) * 60
      let due := now + mins
      let task : String :=
        if task0 = [] then
          let tmp := pyStrip (stripReminderVerb t)
          let tmp := pyStrip (scanSub relLenMatcher [] tmp.length none tmp)
          let tmp2 := pyStripChars [' ', ',', '.', '-'] tmp
          if tmp2 = [] then ("Recordatorio") else ⟨tmp2⟩
        else ⟨task0⟩
      some ⟨task, some due, amount, category⟩
    | none =>
      let cleaned := pyStrip (stripReminderVerb t)
      let due := parse_date_time_from_text dp dh ⟨cleaned⟩
      let task : String := if task0 = [] then ⟨deriveTask cleaned category⟩ else ⟨task0⟩
      some ⟨task, due, amount, category⟩

/-! ## Conversation state machine and the text dispatcher (on_text)

The per-chat user_data dictionary holds at most a pending-new payload and
a pending-reschedule payload; the reschedule continuation is checked
first.  The dispatcher is a pure function of the message, the chat state
and the store; replies are abstracted by the Handled outcome.  The
timezone conversion used when querying ranges is the parameter toUtc. -/

structure NewPayload where
  task : String
  amount_cop : Option Nat
  category : String
deriving DecidableEq, Repr

structure ChatState where
  awaitingNew : Option NewPayload
  awaitingResched : Option Nat
deriving DecidableEq, Repr

structure BotState where
  chatState : ChatState
  store : List Reminder
  nextId : Nat
deriving DecidableEq, Repr

/-- The outcome of handling one inbound text message (which reply branch
of on_text ran, with its semantic payload). -/
inductive Handled where
  | deletedIds (ok notFound : List Nat)
  | commandsHelp
  | pendingList (rows : List Reminder)
  | fullList (rows : List Reminder)
  | quincenaList (rows : List Reminder) (label : String)
  | reschedOk (rid : Nat) (due : Int)
  | reschedGone (rid : Nat)
  | reschedReprompt
  | newSaved (rid : Nat) (due : Int)
  | newReprompt
  | confirmed (rid : Nat) (task : String)
  | confirmNothing
  | paySum (rows : List Reminder) (label : String)
  | createSaved (rid : Nat) (due : Int)
  | createAsk (task : String)
  | fallback
deriving DecidableEq, Repr

def SUM_WORDS : List String :=
  ["suma", "sumame", "sumar", "cuanto debo", "cuánto debo", "cuanto tengo", "total"]

/-- Sequential deletion of the requested ids, partitioning into deleted
and not-found. -/
def deleteMany (store : List Reminder) (chat : Int) :
    List Nat → List Reminder × List Nat × List Nat
  | [] => (store, [], [])
  | rid :: rest =>
    match delete_reminder store chat rid with
    | (some _, store2) =>
      let r := deleteMany store2 chat rest
      (r.1, rid :: r.2.1, r.2.2)
    | (none, store2) =>
      let r := deleteMany store2 chat rest
      (r.1, r.2.1, rid :: r.2.2)

/-- Continuation handling for a pending reschedule: the payload has been
popped; the reply is parsed with the date extractor; on failure the same
payload is pushed back and the user re-prompted. -/
def handleReschedMsg (dp : String → Option Int) (dh : String) (chat : Int) (rid : Nat)
    (text : String) (st1 : BotState) : Handled × BotState :=
  match parse_date_time_from_text dp dh text with
  | none =>
    (.reschedReprompt,
     { st1 with chatState := { st1.chatState with awaitingResched := some rid } })
  | some dt =>
    match update_reminder_time st1.store chat rid dt with
    | (none, store2) => (.reschedGone rid, { st1 with store := store2 })
    | (some due, store2) => (.reschedOk rid due, { st1 with store := store2 })

/-- Continuation handling for a pending creation: the payload has been
popped; the reply is parsed with the date extractor; on failure the same
payload is pushed back and the user re-prompted. -/
def handleNewMsg (dp : String → Option Int) (dh : String) (now : Int) (chat : Int)
    (p : NewPayload) (text : String) (st1 : BotState) : Handled × BotState :=
  match parse_date_time_from_text dp dh text with
  | none =>
    (.newReprompt,
     { st1 with chatState := { st1.chatState with awaitingNew := some p } })
  | some dt =>
    let res := insert_reminder st1.store st1.nextId chat p.task dt p.amount_cop p.category now
    (.newSaved res.1 dt, { st1 with store := res.2, nextId := st1.nextId + 1 })

/-- on_text from src/bot.py on the already-stripped message text,
following the source's branch order exactly: delete request, fixed-phrase
commands and lists, the two continuation states, quick confirmation,
quincena sums, create intent, fallback. -/
def on_text_core (dp : String → Option Int) (dh : String) (toUtc : LocalDT → Int)
    (now : Int) (today : LocalDT) (chat : Int) (text : String) (st : BotState) :
    Handled × BotState :=
  let tl := pyLower text.toList
  match parse_delete_request text with
  | some ids =>
    let r := deleteMany st.store chat ids
    (.deletedIds r.2.1 r.2.2, { st with store := r.1 })
  | none =>
    if is_commands_request text then (.commandsHelp, st)
    else if is_pending_list_request text then
      (.pendingList (fetch_reminders st.store chat (some .pending) 200), st)
    else if is_full_list_request text then
      (.fullList (fetch_reminders st.store chat none 200), st)
    else if is_quincena_list_request text then
      let q := current_quincena_range today
      (.quincenaList (fetch_range st.store chat (toUtc q.1) (toUtc q.2.1) none) q.2.2, st)
    else
      match st.chatState.awaitingResched with
      | some rid =>
        handleReschedMsg dp dh chat rid text
          { st with chatState := { st.chatState with awaitingResched := none } }
      | none =>
        match st.chatState.awaitingNew with
        | some p =>
          handleNewMsg dp dh now chat p text
            { st with chatState := { st.chatState with awaitingNew := none } }
        | none =>
          if looks_like_confirm text then
            match mark_done st.store chat none now with
            | (none, _) => (.confirmNothing, st)
            | (some rt, store2) => (.confirmed rt.1 rt.2, { st with store := store2 })
          else if containsSub ("quincena").toList tl &&
                  SUM_WORDS.any (fun w => containsSub w.toList tl) then
            let q :=
              match parse_quincena_query today text with
              | none => current_quincena_range today
              | some q0 => q0
            (.paySum (fetch_range st.store chat (toUtc q.1) (toUtc q.2.1) none) q.2.2, st)
          else
            match parse_create_intent dp dh now text with
            | some parsed =>
              match parsed.due_local with
              | none =>
                let p2 : NewPayload := ⟨parsed.task, parsed.amount_cop, parsed.category⟩
                (.createAsk parsed.task,
                 { st with chatState := { st.chatState with awaitingNew := some p2 } })
              | some due =>
                let res := insert_reminder st.store st.nextId chat parsed.task due
                  parsed.amount_cop parsed.category now
                (.createSaved res.1 due, { st with store := res.2, nextId := st.nextId + 1 })
            | none => (.fallback, st)

/-- The stripped form of an inbound message (the dispatcher strips the
raw text on entry). -/
def stripS (s : String) : String := ⟨pyStrip s.toList⟩

/-- on_text from src/bot.py on the raw message text. -/
def on_text (dp : String → Option Int) (dh : String) (toUtc : LocalDT → Int)
    (now : Int) (today : LocalDT) (chat : Int) (rawText : String) (st : BotState) :
    Handled × BotState :=
  on_text_core dp dh toUtc now today chat (stripS rawText) st

/-- The snooze-one-hour callback of on_callback: a reschedule to one hour
from now through update_reminder_time. -/
def snooze1h (store : List Reminder) (chat : Int) (rid : Nat) (now : Int) :
    Option Int × List Reminder :=
  update_reminder_time store chat rid (now + 60)

/-! ## Auxiliary specification-side definitions and concrete samples -/

/-- Maximum of two optional naturals (absent counts as neutral); used to
relate the best-candidate fold of the amount extractor to the maximum of
the eligible candidates. -/
def mergeMax (a b : Option Nat) : Option Nat :=
  match a, b with
  | none, b2 => b2
  | some x, none => some x
  | some x, some y => some (max x y)

/-- A date parser that understands nothing (concrete instantiation of the
external-parser parameter). -/
def dp0 : String → Option Int := fun _ => none

/-- A trivial local-to-UTC conversion for concrete instantiations. -/
def tu0 : LocalDT → Int := fun _ => 0

def today0 : LocalDT := ⟨2026, 1, 10, 0, 0⟩

/-- A transport that always fails to deliver. -/
def send0 : Reminder → Bool := fun _ => false

def pW : NewPayload := { task := "t", amount_cop := none, category := "general" }

def samplePending : Reminder :=
  { id := 1, chat_id := 1, task := "pagar arriendo", due_utc := 100, status := .pending,
    amount_cop := some 50000, category := "pago", created_utc := some 0,
    completed_utc := none, retry_count := 3, last_sent_utc := some 40 }

def sampleDone : Reminder :=
  { id := 2, chat_id := 1, task := "llamar", due_utc := 90, status := .done,
    amount_cop := none, category := "general", created_utc := some 0,
    completed_utc := some 95, retry_count := 5, last_sent_utc := some 93 }

def sampleDeleted : Reminder :=
  { id := 3, chat_id := 1, task := "viejo", due_utc := 10, status := .deleted,
    amount_cop := some 7000, category := "pago", created_utc := some 0,
    completed_utc := none, retry_count := 0, last_sent_utc := none }

def sampleExhausted : Reminder :=
  { id := 5, chat_id := 1, task := "cansado", due_utc := 10, status := .pending,
    amount_cop := none, category := "general", created_utc := some 0,
    completed_utc := none, retry_count := 24, last_sent_utc := some 15 }

def r4 : Reminder :=
  { id := 4, chat_id := 1, task := "x", due_utc := 100, status := .pending,
    amount_cop := none, category := "general", created_utc := none,
    completed_utc := none, retry_count := 0, last_sent_utc := none }

/-- A chat awaiting a reschedule date with an empty store. -/
def st2 : BotState :=
  { chatState := { awaitingNew := none, awaitingResched := some 7 }, store := [], nextId := 1 }

/-- A chat awaiting a reschedule date whose store holds one pending row. -/
def st7 : BotState :=
  { chatState := { awaitingNew := none, awaitingResched := some 7 }, store := [r4], nextId := 5 }

/-! # Theorems -/

/-! ## Helper lemmas -/

theorem mergeMax_none_right (a : Option Nat) : mergeMax a none = a := by
  cases a <;> rfl

theorem mergeMax_assoc (a b c : Option Nat) :
    mergeMax (mergeMax a b) c = mergeMax a (mergeMax b c) := by
  cases a <;> cases b <;> cases c <;> simp [mergeMax, Nat.max_assoc]

theorem listMax_cons (a : Nat) (t : List Nat) :
    listMax (a :: t) = mergeMax (some a) (listMax t) := by
  cases h : listMax t <;> simp [listMax, mergeMax, h]

theorem amountStep_eq (b : Option Nat) (c : List Char) :
    amountStep b c =
      if amount_eligible c then mergeMax b (some (digitsToNat (c.filter isDigitC))) else b := by
  unfold amountStep amount_eligible amount_claim_eligible mergeMax
  by_cases h1 : ':' ∈ c
  · simp [h1]
  · by_cases h2 : (c.filter isDigitC).length < 4
    · simp [h1, h2, Nat.not_le.mpr h2]
    · by_cases h3 : digitsToNat (c.filter isDigitC) = 0
      · simp [h1, h2, h3]
      · have h2' : 4 ≤ (c.filter isDigitC).length := Nat.le_of_not_lt h2
        have h3' : 0 < digitsToNat (c.filter isDigitC) := Nat.pos_of_ne_zero h3
        have h3n : ¬digitsToNat (c.filter isDigitC) ≤ 0 := by omega
        cases b with
        | none => simp [h1, h2, h2', h3', h3n]
        | some bb =>
          by_cases h4 : bb < digitsToNat (c.filter isDigitC)
          · simp [h1, h2, h2', h3', h3n, h4, max_eq_right (le_of_lt h4)]
          · simp [h1, h2, h2', h3', h3n, h4, max_eq_left (Nat.le_of_not_lt h4)]

theorem foldl_amountStep (l : List (List Char)) : ∀ b : Option Nat,
    l.foldl amountStep b =
      mergeMax b (listMax ((l.filter amount_eligible).map
        (fun c => digitsToNat (c.filter isDigitC)))) := by
  induction l with
  | nil => intro b; simp [listMax, mergeMax_none_right]
  | cons c t ih =>
    intro b
    rw [List.foldl_cons, ih, amountStep_eq]
    by_cases hc : amount_eligible c
    · rw [if_pos hc, List.filter_cons_of_pos hc, List.map_cons, listMax_cons, mergeMax_assoc]
    · rw [if_neg hc, List.filter_cons_of_neg hc]

theorem map_self_of_mem {α : Type} {f : α → α} :
    ∀ {l : List α}, (∀ x ∈ l, f x = x) → l.map f = l := by
  intro l
  induction l with
  | nil => intro _; rfl
  | cons a t ih =>
    intro h
    simp only [List.map_cons, h a (List.mem_cons_self a t),
      ih (fun x hx => h x (List.mem_cons_of_mem a hx))]

/-- The membership predicate used by update_reminder_time's lookup. -/
theorem update_find_pred (chat : Int) (rid : Nat) (x : Reminder) :
    (decide (x.chat_id = chat ∧ x.id = rid ∧ x.status ≠ .deleted) = true) ↔
      (x.chat_id = chat ∧ x.id = rid ∧ x.status ≠ .deleted) := by
  simp

theorem update_reminder_time_found (l1 l2 : List Reminder) (r : Reminder) (chat : Int)
    (rid : Nat) (newDue : Int)
    (hc : r.chat_id = chat) (hi : r.id = rid) (hs : r.status ≠ .deleted)
    (hu : ∀ x ∈ l1 ++ l2, ¬(x.chat_id = chat ∧ x.id = rid)) :
    update_reminder_time (l1 ++ r :: l2) chat rid newDue =
      (some newDue,
       l1 ++ { r with due_utc := newDue, status := .pending, retry_count := 0,
                      last_sent_utc := none } :: l2) := by
  have hl1 : ∀ x ∈ l1, ¬(x.chat_id = chat ∧ x.id = rid) :=
    fun x hx => hu x (List.mem_append_left l2 hx)
  have hl2 : ∀ x ∈ l2, ¬(x.chat_id = chat ∧ x.id = rid) :=
    fun x hx => hu x (List.mem_append_right l1 hx)
  have hfind :
      (l1 ++ r :: l2).find?
        (fun x => decide (x.chat_id = chat ∧ x.id = rid ∧ x.status ≠ .deleted)) = some r := by
    rw [List.find?_append]
    have h1 : l1.find?
        (fun x => decide (x.chat_id = chat ∧ x.id = rid ∧ x.status ≠ .deleted)) = none := by
      rw [List.find?_eq_none]
      intro x hx
      simp only [decide_eq_true_eq]
      intro hcontra
      exact hl1 x hx ⟨hcontra.1, hcontra.2.1⟩
    rw [h1, List.find?_cons_of_pos _ (by simp [hc, hi, hs])]
    rfl
  simp only [update_reminder_time, hfind]
  refine Prod.ext rfl ?_
  simp only [List.map_append, List.map_cons]
  rw [map_self_of_mem (fun x hx => by
        rw [if_neg]
        exact fun hcontra => hl1 x hx hcontra),
      map_self_of_mem (fun x hx => by
        rw [if_neg]
        exact fun hcontra => hl2 x hx hcontra),
      if_pos ⟨hc, hi⟩]

theorem update_reminder_time_notfound (store : List Reminder) (chat : Int) (rid : Nat)
    (newDue : Int)
    (h : ∀ x ∈ store, x.chat_id = chat → x.id = rid → x.status = .deleted) :
    update_reminder_time store chat rid newDue = (none, store) := by
  have hfind :
      store.find?
        (fun x => decide (x.chat_id = chat ∧ x.id = rid ∧ x.status ≠ .deleted)) = none := by
    rw [List.find?_eq_none]
    intro x hx
    simp only [decide_eq_true_eq]
    intro hcontra
    exact hcontra.2.2 (h x hx hcontra.1 hcontra.2.1)
  simp only [update_reminder_time, hfind]

theorem mem_insertByDue (x : Reminder) :
    ∀ (l : List Reminder) (y : Reminder), y ∈ insertByDue x l ↔ y = x ∨ y ∈ l := by
  intro l
  induction l with
  | nil => intro y; simp [insertByDue]
  | cons a t ih =>
    intro y
    unfold insertByDue
    split
    · simp [or_comm, or_assoc, or_left_comm]
    · simp only [List.mem_cons, ih]
      tauto

theorem mem_sortByDue : ∀ (l : List Reminder) (y : Reminder), y ∈ sortByDue l ↔ y ∈ l := by
  intro l
  induction l with
  | nil => intro y; simp [sortByDue]
  | cons a t ih =>
    intro y
    simp only [sortByDue, mem_insertByDue, ih, List.mem_cons]

/-! ## Claim C1 -/

/-- C1, counterexample.  The text el 1 de febrero mentions a month name
and contains none of the claim's time markers (no colon, no am-pm, no
a-las: text_has_time_hints is false), yet extract_datetime does not
append the default hour: the code also counts the standalone day digit as
a time hint, so the text handed to the date parser is the unchanged
sentence, not the sentence with 09:00 appended. -/
theorem c1_counterexample_numeric_day :
    mentions_day (pyLower (strip_money_candidates ("el 1 de febrero")).toList) = true ∧
    text_has_time_hints (strip_money_candidates ("el 1 de febrero")).toList = false ∧
    augmentText ("09:00") ("el 1 de febrero") = "el 1 de febrero" ∧
    augmentText ("09:00") ("el 1 de febrero") ≠
      strip_money_candidates ("el 1 de febrero") ++ " " ++ "09:00" :=
  ⟨by decide, by decide, by decide, by decide⟩

/-- C1, amended.  If the money-stripped text mentions a day word and has
no time hint (no colon, no am-pm, no a-las) and additionally contains no
standalone one-or-two digit number, then extract_datetime appends the
configured default hour and delegates the augmented text to the date
parser; in particular mañana with default hour 09:00 is delegated as
mañana 09:00 (which the external Spanish parser resolves to tomorrow at
09:00 local). -/
theorem c1_default_hour_augmentation (dp : String → Option Int) (dh s : String)
    (hday : mentions_day (pyLower (strip_money_candidates s).toList) = true)
    (hhints : text_has_time_hints (strip_money_candidates s).toList = false)
    (hbare : bareNumSearch (pyLower (strip_money_candidates s).toList) = false) :
    augmentText dh s = strip_money_candidates s ++ " " ++ dh ∧
    parse_date_time_from_text dp dh s = dp (strip_money_candidates s ++ " " ++ dh) := by
  have h1 : augmentText dh s = strip_money_candidates s ++ " " ++ dh := by
    have hday2 := hday
    have hhints2 := hhints
    have hbare2 := hbare
    simp only [String.toList] at hday2 hhints2 hbare2
    unfold augmentText
    simp [String.toList, hday2, hhints2, hbare2]
  exact ⟨h1, by unfold parse_date_time_from_text; rw [h1]⟩

/-- C1, witness: the amended theorem applied to mañana with default hour
09:00 under a concrete external parser. -/
theorem c1_default_hour_augmentation_witness :
    augmentText ("09:00") ("mañana") = strip_money_candidates ("mañana") ++ " " ++ "09:00" ∧
    parse_date_time_from_text dp0 ("09:00") ("mañana") =
      dp0 (strip_money_candidates ("mañana") ++ " " ++ "09:00") :=
  c1_default_hour_augmentation dp0 ("09:00") ("mañana") (by decide) (by decide) (by decide)

/-! ## Claim C3 -/

/-- C3, counterexample.  In pago 0000 the candidate 0000 has four digits
and no colon, so by the claim's procedure it is eligible and the largest
remaining value 0 would be returned (amount_claim_spec follows the
claim's words), but parse_amount_cop_strict also discards non-positive
values and returns none. -/
theorem c3_counterexample_zero_candidate :
    parse_amount_cop_strict ("pago 0000") = none ∧
    amount_claim_spec ("pago 0000") = some 0 :=
  ⟨by decide, by decide⟩

/-- C3, amended.  parse_amount_cop_strict returns an amount only under a
money-context keyword; among the numeric candidates it discards any with
a colon, any with fewer than four digits ignoring separators, and any
whose value is zero, and returns the largest remaining value; with no
money context or no eligible candidate it returns none
(amount_amended_spec states exactly this).  The claim's examples hold:
pagar 1.000 pesos y debo 50000 más yields 50000, and the two
no-money-context texts yield none. -/
theorem c3_amount_extraction :
    (∀ s : String, parse_amount_cop_strict s = amount_amended_spec s) ∧
    parse_amount_cop_strict ("pagar 1.000 pesos y debo 50000 más") = some 50000 ∧
    parse_amount_cop_strict ("nos vemos a las 18:30") = none ∧
    parse_amount_cop_strict ("cita 2026-02-03") = none := by
  refine ⟨fun s => ?_, by decide, by decide, by decide⟩
  unfold parse_amount_cop_strict amount_amended_spec
  by_cases h : money_context (pyLower s.toList)
  · rw [if_pos h, if_pos h, foldl_amountStep]
    cases listMax (((findallMoney s).filter amount_eligible).map
      (fun c => digitsToNat (c.filter isDigitC))) <;> rfl
  · rw [if_neg h, if_neg h]

/-! ## Claim C4 -/

/-- C4.  For a stored reminder that is not deleted (pending or done),
rescheduling returns the new due instant and rewrites the row with status
pending, retry count zero, last-sent cleared and the new due instant,
leaving every other row unchanged; for a store in which every row with
that chat and id is deleted (in particular an absent id), it returns
not-found and leaves the store unchanged. -/
theorem c4_reschedule_reopens (l1 l2 : List Reminder) (r : Reminder) (chat : Int)
    (rid : Nat) (newDue : Int)
    (hc : r.chat_id = chat) (hi : r.id = rid) (hs : r.status ≠ .deleted)
    (hu : ∀ x ∈ l1 ++ l2, ¬(x.chat_id = chat ∧ x.id = rid)) :
    update_reminder_time (l1 ++ r :: l2) chat rid newDue =
      (some newDue,
       l1 ++ { r with due_utc := newDue, status := .pending, retry_count := 0,
                      last_sent_utc := none } :: l2) ∧
    ∀ store2 : List Reminder,
      (∀ x ∈ store2, x.chat_id = chat → x.id = rid → x.status = .deleted) →
      update_reminder_time store2 chat rid newDue = (none, store2) :=
  ⟨update_reminder_time_found l1 l2 r chat rid newDue hc hi hs hu,
   fun store2 h2 => update_reminder_time_notfound store2 chat rid newDue h2⟩

/-- C4, witness: a concrete pending reminder is reopened with reset
bookkeeping, and a deleted one yields not-found with the store
untouched. -/
theorem c4_reschedule_reopens_witness :
    update_reminder_time [samplePending] 1 1 50 =
      (some 50,
       [{ samplePending with due_utc := 50, status := .pending, retry_count := 0,
                             last_sent_utc := none }]) ∧
    update_reminder_time [sampleDeleted] 1 3 50 = (none, [sampleDeleted]) := by
  have h := c4_reschedule_reopens [] [] samplePending 1 1 50 rfl rfl (by decide)
    (by intro x hx; simp at hx)
  exact ⟨h.1, h.2 [sampleDeleted]
    (by intro x hx h1 h2; simp at hx; subst hx; rfl)⟩

/-! ## Claim C10 -/

/-- C10.  The snooze-one-hour callback action is exactly a reschedule to
one hour from now through update_reminder_time: for a stored non-deleted
reminder (including one already marked done) it reopens the row as
pending with retry count zero, last-sent cleared and due one hour from
now; when every row with that chat and id is deleted (or absent) it
returns not-found and changes nothing. -/
theorem c10_snooze_is_reschedule (l1 l2 : List Reminder) (r : Reminder) (chat : Int)
    (rid : Nat) (now : Int)
    (hc : r.chat_id = chat) (hi : r.id = rid) (hs : r.status ≠ .deleted)
    (hu : ∀ x ∈ l1 ++ l2, ¬(x.chat_id = chat ∧ x.id = rid)) :
    (∀ store : List Reminder,
       snooze1h store chat rid now = update_reminder_time store chat rid (now + 60)) ∧
    snooze1h (l1 ++ r :: l2) chat rid now =
      (some (now + 60),
       l1 ++ { r with due_utc := now + 60, status := .pending, retry_count := 0,
                      last_sent_utc := none } :: l2) ∧
    ∀ store2 : List Reminder,
      (∀ x ∈ store2, x.chat_id = chat → x.id = rid → x.status = .deleted) →
      snooze1h store2 chat rid now = (none, store2) :=
  ⟨fun _ => rfl,
   update_reminder_time_found l1 l2 r chat rid (now + 60) hc hi hs hu,
   fun store2 h2 => update_reminder_time_notfound store2 chat rid (now + 60) h2⟩

/-- C10, witness: snoozing a reminder already marked done reopens it as
pending due one hour from now; a deleted id is not-found. -/
theorem c10_snooze_is_reschedule_witness :
    snooze1h [sampleDone] 1 2 200 =
      (some 260,
       [{ sampleDone with due_utc := 260, status := .pending, retry_count := 0,
                          last_sent_utc := none }]) ∧
    snooze1h [sampleDeleted] 1 3 200 = (none, [sampleDeleted]) := by
  have h := c10_snooze_is_reschedule [] [] sampleDone 1 2 200 rfl rfl (by decide)
    (by intro x hx; simp at hx)
  exact ⟨h.2.1, h.2.2 [sampleDeleted]
    (by intro x hx h1 h2; simp at hx; subst hx; rfl)⟩

/-! ## Claim C5 -/

/-- C5.  On a tick, a pending reminder whose due instant has passed and
whose retry count has reached the configured maximum is transitioned to
done (with the completion instant stamped) and no delivery attempt is
made for it; on any later tick with any parameters the resulting done row
is left untouched and never attempted; inside a whole tick over the store
the row is rewritten in place. -/
theorem c5_retry_exhaustion_autocloses (maxR : Nat) (cool now : Int)
    (send : Reminder → Bool) (r : Reminder)
    (hp : r.status = .pending) (hdue : r.due_utc ≤ now) (hmax : maxR ≤ r.retry_count) :
    tickStep maxR cool now send r =
      ({ r with status := .done, completed_utc := some now }, false) ∧
    (∀ (maxR2 : Nat) (cool2 now2 : Int) (send2 : Reminder → Bool),
       tickStep maxR2 cool2 now2 send2 { r with status := .done, completed_utc := some now } =
         ({ r with status := .done, completed_utc := some now }, false)) ∧
    (∀ l1 l2 : List Reminder,
       tick_job maxR cool now send (l1 ++ r :: l2) =
         tick_job maxR cool now send l1 ++
           { r with status := .done, completed_utc := some now } :: tick_job maxR cool now send l2) := by
  have h1 : tickStep maxR cool now send r =
      ({ r with status := .done, completed_utc := some now }, false) := by
    unfold tickStep tickOne
    rw [if_pos hp, if_neg (not_lt.mpr hdue), if_pos hmax]
  refine ⟨h1, ?_, ?_⟩
  · intro maxR2 cool2 now2 send2
    unfold tickStep
    simp
  · intro l1 l2
    unfold tick_job
    rw [List.map_append, List.map_cons, h1]

/-- C5, witness: a concrete exhausted pending reminder is closed on the
tick without a send attempt. -/
theorem c5_retry_exhaustion_autocloses_witness :
    tickStep 24 60 20 send0 sampleExhausted =
      ({ sampleExhausted with status := .done, completed_utc := some 20 }, false) :=
  (c5_retry_exhaustion_autocloses 24 60 20 send0 sampleExhausted rfl (by decide) (by decide)).1

/-! ## Claim C6 -/

/-- A tick step whose send fails never changes the retry count or the
last-sent stamp of the row. -/
theorem tickStep_keeps_counters (maxR : Nat) (cool now : Int) (send2 : Reminder → Bool)
    (r2 : Reminder) (hs2 : send2 r2 = false) :
    (tickStep maxR cool now send2 r2).1.retry_count = r2.retry_count ∧
    (tickStep maxR cool now send2 r2).1.last_sent_utc = r2.last_sent_utc := by
  unfold tickStep tickOne
  split
  · split
    · exact ⟨rfl, rfl⟩
    · split
      · exact ⟨rfl, rfl⟩
      · split
        · exact ⟨rfl, rfl⟩
        · rw [hs2]
          exact ⟨rfl, rfl⟩
  · exact ⟨rfl, rfl⟩

/-- C6.  When the delivery attempt for an eligible pending reminder fails
(the transport reports failure, modelling a caught exception), the row is
left exactly unchanged — in particular retry count and last-sent keep
their values — while a delivery attempt is recorded; the tick still
processes every other reminder of the store; for any row, the tick
changes its retry count or its last-sent stamp only when its send
succeeded; and the unchanged row is attempted again at any later instant
at which its due has passed and the cooldown measured from its previous
successful send has elapsed. -/
theorem c6_failed_send_keeps_bookkeeping (maxR : Nat) (cool now : Int)
    (send : Reminder → Bool) (r : Reminder)
    (hp : r.status = .pending) (hdue : r.due_utc ≤ now) (hretry : r.retry_count < maxR)
    (hcool : cooldown_ok cool now r.last_sent_utc = true) (hfail : send r = false) :
    tickStep maxR cool now send r = (r, true) ∧
    (∀ l1 l2 : List Reminder,
       tick_job maxR cool now send (l1 ++ r :: l2) =
         tick_job maxR cool now send l1 ++ r :: tick_job maxR cool now send l2) ∧
    (∀ (send2 : Reminder → Bool) (r2 : Reminder),
       ((tickStep maxR cool now send2 r2).1.retry_count ≠ r2.retry_count ∨
        (tickStep maxR cool now send2 r2).1.last_sent_utc ≠ r2.last_sent_utc) →
       send2 r2 = true) ∧
    (∀ (now2 : Int) (send2 : Reminder → Bool),
       r.due_utc ≤ now2 → cooldown_ok cool now2 r.last_sent_utc = true →
       (tickStep maxR cool now2 send2 r).2 = true) := by
  have h1 : tickStep maxR cool now send r = (r, true) := by
    unfold tickStep tickOne
    rw [if_pos hp, if_neg (not_lt.mpr hdue), if_neg (Nat.not_le.mpr hretry)]
    simp [hcool, hfail]
  refine ⟨h1, ?_, ?_, ?_⟩
  · intro l1 l2
    unfold tick_job
    rw [List.map_append, List.map_cons, h1]
  · intro send2 r2 hchange
    by_cases hsend : send2 r2 = true
    · exact hsend
    · exfalso
      have hs2 : send2 r2 = false := by
        cases h : send2 r2
        · rfl
        · exact absurd h hsend
      rcases hchange with hra | hrb
      · exact hra (tickStep_keeps_counters maxR cool now send2 r2 hs2).1
      · exact hrb (tickStep_keeps_counters maxR cool now send2 r2 hs2).2
  · intro now2 send2 hdue2 hcool2
    unfold tickStep tickOne
    rw [if_pos hp, if_neg (not_lt.mpr hdue2), if_neg (Nat.not_le.mpr hretry)]
    simp only [hcool2, Bool.not_true, Bool.false_eq_true, if_false]
    split <;> rfl

/-- C6, witness: a concrete eligible pending reminder whose send fails is
left unchanged by the tick while an attempt is recorded. -/
theorem c6_failed_send_keeps_bookkeeping_witness :
    tickStep 24 60 110 send0 samplePending = (samplePending, true) :=
  (c6_failed_send_keeps_bookkeeping 24 60 110 send0 samplePending rfl (by decide)
    (by decide) (by decide) rfl).1

/-! ## Claim C8 -/

theorem not_mem_fetch_filter (p : Reminder → Bool) (r : Reminder) (hp : p r = false)
    (store : List Reminder) (limit : Nat) :
    r ∉ (sortByDue (store.filter p)).take limit := by
  intro h
  have h2 := List.mem_of_mem_take h
  rw [mem_sortByDue] at h2
  have h3 := (List.mem_filter.mp h2).2
  rw [hp] at h3
  exact absurd h3 (by simp)

theorem filter_skip_mid (p : Reminder → Bool) (r : Reminder) (hp : p r = false)
    (l1 l2 : List Reminder) : (l1 ++ r :: l2).filter p = (l1 ++ l2).filter p := by
  rw [List.filter_append, List.filter_append, List.filter_cons_of_neg (by simp [hp])]

/-- C8, counterexample.  fetch_reminders called with the explicit status
argument deleted returns deleted rows, so a deleted reminder is not
excluded from every result of the list operation for every status
argument. -/
theorem c8_counterexample_status_argument :
    sampleDeleted.status = .deleted ∧
    fetch_reminders [sampleDeleted] 1 (some .deleted) 200 = [sampleDeleted] :=
  ⟨rfl, by decide⟩

/-- C8, amended.  A deleted reminder never appears in any result of
fetch_reminders for any status argument other than the literal deleted
status, never appears in any fetch_range result or in its payment rows
for any range and category, and removing it from anywhere in the store
changes neither the fetched lists nor the payment total. -/
theorem c8_deleted_excluded (chat : Int) (status : Option Status) (limit : Nat)
    (startI endI : Int) (cat : Option String) (r : Reminder)
    (hr : r.status = .deleted) (hst : status ≠ some .deleted) :
    (∀ store : List Reminder, r ∉ fetch_reminders store chat status limit) ∧
    (∀ store : List Reminder, r ∉ fetch_range store chat startI endI cat) ∧
    (∀ store : List Reminder, r ∉ payRows (fetch_range store chat startI endI cat)) ∧
    (∀ l1 l2 : List Reminder,
       fetch_reminders (l1 ++ r :: l2) chat status limit =
         fetch_reminders (l1 ++ l2) chat status limit) ∧
    (∀ l1 l2 : List Reminder,
       fetch_range (l1 ++ r :: l2) chat startI endI cat =
         fetch_range (l1 ++ l2) chat startI endI cat) ∧
    (∀ l1 l2 : List Reminder,
       pay_sum_total (fetch_range (l1 ++ r :: l2) chat startI endI cat) =
         pay_sum_total (fetch_range (l1 ++ l2) chat startI endI cat)) := by
  have hpn : decide (r.chat_id = chat ∧ r.status ≠ Status.deleted) = false :=
    decide_eq_false (fun hh => hh.2 hr)
  have hprange : decide (r.chat_id = chat ∧ r.status ≠ Status.deleted ∧
      (∀ c, cat = some c → r.category = c) ∧ startI ≤ r.due_utc ∧ r.due_utc ≤ endI) = false :=
    decide_eq_false (fun hh => hh.2.1 hr)
  have hrange : ∀ store : List Reminder, r ∉ fetch_range store chat startI endI cat := by
    intro store h
    unfold fetch_range at h
    rw [mem_sortByDue] at h
    have h3 := (List.mem_filter.mp h).2
    rw [hprange] at h3
    exact absurd h3 (by simp)
  have hrangeEq : ∀ l1 l2 : List Reminder,
      fetch_range (l1 ++ r :: l2) chat startI endI cat =
        fetch_range (l1 ++ l2) chat startI endI cat := by
    intro l1 l2
    unfold fetch_range
    rw [filter_skip_mid (fun x : Reminder => decide (x.chat_id = chat ∧
      x.status ≠ Status.deleted ∧ (∀ c, cat = some c → x.category = c) ∧
      startI ≤ x.due_utc ∧ x.due_utc ≤ endI)) r hprange l1 l2]
  refine ⟨?_, hrange, ?_, ?_, hrangeEq, ?_⟩
  · intro store
    cases status with
    | none =>
      simp only [fetch_reminders]
      exact not_mem_fetch_filter
        (fun x : Reminder => decide (x.chat_id = chat ∧ x.status ≠ Status.deleted))
        r hpn store limit
    | some st =>
      have hst2 : st ≠ Status.deleted := fun h => hst (by rw [h])
      have hps : decide (r.chat_id = chat ∧ r.status = st) = false :=
        decide_eq_false (fun hh => hst2 (by rw [← hh.2, hr]))
      simp only [fetch_reminders]
      exact not_mem_fetch_filter
        (fun x : Reminder => decide (x.chat_id = chat ∧ x.status = st)) r hps store limit
  · intro store h
    unfold payRows at h
    exact hrange store (List.mem_filter.mp h).1
  · intro l1 l2
    cases status with
    | none =>
      simp only [fetch_reminders]
      rw [filter_skip_mid
        (fun x : Reminder => decide (x.chat_id = chat ∧ x.status ≠ Status.deleted))
        r hpn l1 l2]
    | some st =>
      have hst2 : st ≠ Status.deleted := fun h => hst (by rw [h])
      have hps : decide (r.chat_id = chat ∧ r.status = st) = false :=
        decide_eq_false (fun hh => hst2 (by rw [← hh.2, hr]))
      simp only [fetch_reminders]
      rw [filter_skip_mid
        (fun x : Reminder => decide (x.chat_id = chat ∧ x.status = st)) r hps l1 l2]
  · intro l1 l2
    rw [hrangeEq l1 l2]

/-- C8, witness: the amended exclusions applied to a concrete deleted
reminder whose due instant lies inside the queried range. -/
theorem c8_deleted_excluded_witness :
    (sampleDeleted ∉ fetch_reminders [sampleDeleted] 1 none 200) ∧
    (sampleDeleted ∉ fetch_range [sampleDeleted] 1 0 100 none) ∧
    pay_sum_total (fetch_range ([samplePending] ++ sampleDeleted :: []) 1 0 200 none) =
      pay_sum_total (fetch_range ([samplePending] ++ []) 1 0 200 none) := by
  have h := c8_deleted_excluded 1 none 200 0 100 none sampleDeleted rfl (by simp)
  have h2 := c8_deleted_excluded 1 none 200 0 200 none sampleDeleted rfl (by simp)
  exact ⟨h.1 [sampleDeleted], h.2.1 [sampleDeleted], h2.2.2.2.2.2 [samplePending] []⟩

/-! ## Claim C9 -/

/-- For a query that names an explicit half and in which a year is found,
parse_quincena_query does not consult the current date. -/
theorem parse_quincena_query_today_irrel (s : String) (t1 t2 : LocalDT)
    (h1 : containsSub ("esta quincena").toList (pyLower s.toList) = false)
    (h2 : containsSub ("primera quincena").toList (pyLower s.toList) = true)
    (h3 : ∃ yy, scanFind yearMatcher none (pyLower s.toList) = some yy) :
    parse_quincena_query t1 s = parse_quincena_query t2 s := by
  obtain ⟨yy, hy⟩ := h3
  unfold parse_quincena_query
  simp only [h1, h2, hy, Bool.false_eq_true, if_false, if_true]

/-- C9.  The first quincena of a month and year is the local window from
the first at 00:00 through the fifteenth at 23:59, the second from the
sixteenth at 00:00 through the last day of the month at 23:59; and for
every Spanish month name an explicit primera-quincena query with the year
2026 resolves, independently of the current date, to the window from the
first at 00:00 through the fifteenth at 23:59 of that month of 2026. -/
theorem c9_quincena_windows :
    (∀ y m : Nat, quincena_range y m 1 = (⟨y, m, 1, 0, 0⟩, ⟨y, m, 15, 23, 59⟩)) ∧
    (∀ y m which : Nat, which ≠ 1 →
       quincena_range y m which = (⟨y, m, 16, 0, 0⟩, ⟨y, m, daysInMonth y m, 23, 59⟩)) ∧
    (∀ (today : LocalDT) (mname : String) (mnum : Nat), (mname, mnum) ∈ MONTHS_ES →
       parse_quincena_query today (("primera quincena de ") ++ mname ++ " 2026") =
         some (⟨2026, mnum, 1, 0, 0⟩, ⟨2026, mnum, 15, 23, 59⟩,
               ("primera quincena de ") ++ mname ++ " 2026")) := by
  refine ⟨fun y m => rfl, fun y m which h => by unfold quincena_range; rw [if_neg h], ?_⟩
  intro today mname mnum h
  fin_cases h <;>
    exact (parse_quincena_query_today_irrel _ today today0 (by decide) (by decide)
      ⟨2026, by decide⟩).trans (by rfl)

/-- C9, witness: the concrete primera quincena de febrero 2026 window,
and the second-half window of February 2026 ending on the 28th. -/
theorem c9_quincena_windows_witness :
    quincena_range 2026 2 1 = (⟨2026, 2, 1, 0, 0⟩, ⟨2026, 2, 15, 23, 59⟩) ∧
    quincena_range 2026 2 2 = (⟨2026, 2, 16, 0, 0⟩, ⟨2026, 2, daysInMonth 2026 2, 23, 59⟩) ∧
    parse_quincena_query today0 ("primera quincena de febrero 2026") =
      some (⟨2026, 2, 1, 0, 0⟩, ⟨2026, 2, 15, 23, 59⟩, "primera quincena de febrero 2026") := by
  refine ⟨c9_quincena_windows.1 2026 2, c9_quincena_windows.2.1 2026 2 2 (by decide), ?_⟩
  exact c9_quincena_windows.2.2 today0 ("febrero") 2 (by simp [MONTHS_ES])

/-! ## Claims C2 and C7 -/

/-- For a message that is not a delete request and matches none of the
fixed phrases, a chat holding a continuation has the message handled by
the continuation handler: the payload is popped and the message parsed
with the date extractor, before confirmation, sum or create-intent
classification can see it. -/
theorem on_text_reaches_continuation (dp : String → Option Int) (dh : String)
    (toUtc : LocalDT → Int) (now : Int) (today : LocalDT) (chat : Int) (raw : String)
    (st : BotState)
    (h0 : parse_delete_request (stripS raw) = none)
    (h1 : is_commands_request (stripS raw) = false)
    (h2 : is_pending_list_request (stripS raw) = false)
    (h3 : is_full_list_request (stripS raw) = false)
    (h4 : is_quincena_list_request (stripS raw) = false) :
    (∀ rid : Nat, st.chatState.awaitingResched = some rid →
       on_text dp dh toUtc now today chat raw st =
         handleReschedMsg dp dh chat rid (stripS raw)
           { st with chatState := { st.chatState with awaitingResched := none } }) ∧
    (∀ p : NewPayload, st.chatState.awaitingResched = none →
       st.chatState.awaitingNew = some p →
       on_text dp dh toUtc now today chat raw st =
         handleNewMsg dp dh now chat p (stripS raw)
           { st with chatState := { st.chatState with awaitingNew := none } }) := by
  constructor
  · intro rid hR
    unfold on_text on_text_core
    simp [h0, h1, h2, h3, h4, hR]
  · intro p hR hN
    unfold on_text on_text_core
    simp [h0, h1, h2, h3, h4, hR, hN]

/-- C2, counterexample.  A chat awaiting a reschedule date that sends the
fixed phrase lista has the message handled by the fixed-phrase pending
list command, not as the continuation: no payload is popped, no date is
parsed, and the continuation outcome never occurs. -/
theorem c2_counterexample_fixed_phrase :
    st2.chatState.awaitingResched = some 7 ∧
    on_text dp0 ("09:00") tu0 0 today0 1 ("lista") st2 = (Handled.pendingList [], st2) :=
  ⟨rfl, by decide⟩

/-- C2, amended.  Delete requests and the fixed-phrase commands are
matched before the continuation check; for every other inbound text, a
chat whose continuation state is awaiting-reschedule (or, with no
reschedule pending, awaiting-new) has the message handled as the
continuation — the pending payload popped and the message parsed with
the date extractor — before quick confirmation, quincena sums or
create-intent classification are applied to it. -/
theorem c2_continuation_precedence (dp : String → Option Int) (dh : String)
    (toUtc : LocalDT → Int) (now : Int) (today : LocalDT) (chat : Int) (raw : String)
    (st : BotState) (rid : Nat) (p : NewPayload)
    (h0 : parse_delete_request (stripS raw) = none)
    (h1 : is_commands_request (stripS raw) = false)
    (h2 : is_pending_list_request (stripS raw) = false)
    (h3 : is_full_list_request (stripS raw) = false)
    (h4 : is_quincena_list_request (stripS raw) = false) :
    (st.chatState.awaitingResched = some rid →
       on_text dp dh toUtc now today chat raw st =
         handleReschedMsg dp dh chat rid (stripS raw)
           { st with chatState := { st.chatState with awaitingResched := none } }) ∧
    (st.chatState.awaitingResched = none → st.chatState.awaitingNew = some p →
       on_text dp dh toUtc now today chat raw st =
         handleNewMsg dp dh now chat p (stripS raw)
           { st with chatState := { st.chatState with awaitingNew := none } }) :=
  ⟨fun hR => (on_text_reaches_continuation dp dh toUtc now today chat raw st
      h0 h1 h2 h3 h4).1 rid hR,
   fun hR hN => (on_text_reaches_continuation dp dh toUtc now today chat raw st
      h0 h1 h2 h3 h4).2 p hR hN⟩

/-- C2, witness: a concrete awaiting-reschedule chat receiving an
ordinary text has it dispatched to the continuation handler. -/
theorem c2_continuation_precedence_witness :
    on_text dp0 ("09:00") tu0 0 today0 1 ("hola") st2 =
      handleReschedMsg dp0 ("09:00") 1 7 (stripS ("hola"))
        { st2 with chatState := { st2.chatState with awaitingResched := none } } :=
  (c2_continuation_precedence dp0 ("09:00") tu0 0 today0 1 ("hola") st2 7 pW
    (by decide) (by decide) (by decide) (by decide) (by decide)).1 rfl

/-- C7, counterexample.  With a reschedule continuation pending, the
reply borrar 4 — whose date cannot be parsed — is handled by the delete
branch: the store is mutated (the reminder is soft-deleted) and no
re-prompt occurs, contradicting the claim for this reply. -/
theorem c7_counterexample_delete_during_continuation :
    st7.chatState.awaitingResched = some 7 ∧
    parse_date_time_from_text dp0 ("09:00") (stripS ("borrar 4")) = none ∧
    (on_text dp0 ("09:00") tu0 0 today0 1 ("borrar 4") st7).2.store ≠ st7.store ∧
    (on_text dp0 ("09:00") tu0 0 today0 1 ("borrar 4") st7).1 = Handled.deletedIds [4] [] :=
  ⟨rfl, by decide, by decide, by decide⟩

/-- C7, amended.  For every continuation state and every reply that is
not a delete request or fixed-phrase command and whose date cannot be
parsed, handling the reply re-prompts the user and returns exactly the
prior state: the same continuation payload is restored and the store is
untouched.  (A reply matching an earlier branch, such as borrar, is
handled by that branch instead, as the counterexample shows.) -/
theorem c7_unparseable_reply_restores (dp : String → Option Int) (dh : String)
    (toUtc : LocalDT → Int) (now : Int) (today : LocalDT) (chat : Int) (raw : String)
    (st : BotState) (rid : Nat) (p : NewPayload)
    (h0 : parse_delete_request (stripS raw) = none)
    (h1 : is_commands_request (stripS raw) = false)
    (h2 : is_pending_list_request (stripS raw) = false)
    (h3 : is_full_list_request (stripS raw) = false)
    (h4 : is_quincena_list_request (stripS raw) = false)
    (hparse : parse_date_time_from_text dp dh (stripS raw) = none) :
    (st.chatState.awaitingResched = some rid →
       on_text dp dh toUtc now today chat raw st = (Handled.reschedReprompt, st)) ∧
    (st.chatState.awaitingResched = none → st.chatState.awaitingNew = some p →
       on_text dp dh toUtc now today chat raw st = (Handled.newReprompt, st)) := by
  constructor
  · intro hR
    rw [(on_text_reaches_continuation dp dh toUtc now today chat raw st
      h0 h1 h2 h3 h4).1 rid hR]
    unfold handleReschedMsg
    obtain ⟨⟨aN, aR⟩, sStore, sNid⟩ := st
    simp only [hparse]
    dsimp only at hR ⊢
    subst hR
    rfl
  · intro hR hN
    rw [(on_text_reaches_continuation dp dh toUtc now today chat raw st
      h0 h1 h2 h3 h4).2 p hR hN]
    unfold handleNewMsg
    obtain ⟨⟨aN, aR⟩, sStore, sNid⟩ := st
    simp only [hparse]
    dsimp only at hN ⊢
    subst hN
    rfl

/-- C7, witness: a concrete awaiting-reschedule chat receiving an
unparseable reply is re-prompted with its state unchanged. -/
theorem c7_unparseable_reply_restores_witness :
    on_text dp0 ("09:00") tu0 0 today0 1 ("hola") st2 = (Handled.reschedReprompt, st2) :=
  (c7_unparseable_reply_restores dp0 ("09:00") tu0 0 today0 1 ("hola") st2 7 pW
    (by decide) (by decide) (by decide) (by decide) (by decide) (by decide)).1 rfl

end Bot
